import Mathlib

/-!
Shallow embedding of the locality-synchronisation core of the `proleg`
repository (`core/services/ibge.py`, `core/services/dab.py`,
`core/models.py`).

JSON payloads are modelled by the mutual inductive `JVal`/`JArr`/`JObj`;
Python `dict.get`, subscription (`d[k]`) and truthiness are modelled
explicitly, with `PyErr` standing for the exceptions the Python code can
raise (`AttributeError`, `KeyError`, `TypeError`, the database
`IntegrityError`, and Django's `ValidationError`, which this code never
raises).  The database is an association-list store per table; the
`TimeStamped` audit columns of `core/models.py` are modelled by a
monotone save clock (`created_at` / `updated_at` ticks).  The foreign
keys `Estado.regiao` and `Municipio.estado` are declared without
`null=True` in `core/models.py`, so a save with a `None` parent raises
an integrity error; the row types therefore store the parent key
unconditionally and the save helpers enforce NOT NULL and referential
existence.
-/

mutual

inductive JVal where
  | null
  | jnum (n : Int)
  | jstr (s : String)
  | jbool (b : Bool)
  | jarr (xs : JArr)
  | jobj (fields : JObj)
deriving DecidableEq, Repr

inductive JArr where
  | nil
  | cons (hd : JVal) (tl : JArr)
deriving DecidableEq, Repr

inductive JObj where
  | nil
  | cons (key : String) (val : JVal) (tl : JObj)
deriving DecidableEq, Repr

end

/-- Python dictionary lookup on the underlying association object: the
first binding of the key, `none` when the key is absent. -/
def JObj.lookup (k : String) : JObj → Option JVal
  | .nil => none
  | .cons k' v tl => if k' = k then some v else tl.lookup k

/-- Conversion of a JSON array to a Lean list of its elements. -/
def JArr.toList : JArr → List JVal
  | .nil => []
  | .cons x tl => x :: tl.toList

/-- Exceptions of the Python reconciliation path.  `validationError`
models Django's `ValidationError`, which is part of the error taxonomy
but is never raised by this code. -/
inductive PyErr where
  | attrError
  | keyError (k : String)
  | typeError
  | integrityError
  | validationError
deriving DecidableEq, Repr

/-- Python truthiness (`if x:`) of a JSON value: `None`, `0`, `""`, `[]`
and `{}` are falsy, everything else is truthy. -/
def JVal.truthy : JVal → Bool
  | .null => false
  | .jnum n => n != 0
  | .jstr s => s != ""
  | .jbool b => b
  | .jarr a => a != .nil
  | .jobj o => o != .nil

/-- Python `d.get(k, default)`: on a dict, the bound value when the key
is present (even when that value is `None`) and `default` otherwise; on
any non-dict value an `AttributeError`. -/
def JVal.getD (v : JVal) (k : String) (dflt : JVal) : Except PyErr JVal :=
  match v with
  | .jobj fs => .ok ((fs.lookup k).getD dflt)
  | _ => .error .attrError

/-- Python `d.get(k)` (default `None`). -/
def JVal.get (v : JVal) (k : String) : Except PyErr JVal :=
  v.getD k .null

/-- Python subscription `d[k]`: `KeyError` when the key is absent from a
dict, `TypeError` when the value is not subscriptable by a string. -/
def JVal.item (v : JVal) (k : String) : Except PyErr JVal :=
  match v with
  | .jobj fs =>
    match fs.lookup k with
    | some x => .ok x
    | none => .error (.keyError k)
  | _ => .error .typeError

/-- Persisted `Regiao` row: the fields written by `_ensure_regiao` plus
the audit ticks of `TimeStamped`. -/
structure RegiaoRow where
  sigla : JVal
  nome : JVal
  createdAt : Nat
  updatedAt : Nat
deriving DecidableEq, Repr

/-- Persisted `Estado` row.  `regiao` is the foreign key to the region;
`core/models.py` declares it without `null=True`, so a row always
carries a region key. -/
structure EstadoRow where
  sigla : JVal
  nome : JVal
  regiao : JVal
  createdAt : Nat
  updatedAt : Nat
deriving DecidableEq, Repr

/-- Persisted `Municipio` row; `estado` is the non-nullable foreign key
to the state. -/
structure MunicipioRow where
  nome : JVal
  estado : JVal
  createdAt : Nat
  updatedAt : Nat
deriving DecidableEq, Repr

/-- Database state: one association table per synchronised entity,
keyed by the external id carried in the payloads, plus the monotone
save clock standing for the wall-clock timestamps of `TimeStamped`. -/
structure DB where
  clock : Nat
  regioes : List (JVal × RegiaoRow)
  estados : List (JVal × EstadoRow)
  municipios : List (JVal × MunicipioRow)
deriving DecidableEq, Repr

/-- Initial empty store. -/
def emptyDB : DB := { clock := 0, regioes := [], estados := [], municipios := [] }

/-- Upsert into an association table: replace the first binding of the
key in place, append when the key is absent (the behaviour of
`update_or_create` keyed by the primary key). -/
def upsertList (k : JVal) (row : ρ) : List (JVal × ρ) → List (JVal × ρ)
  | [] => [(k, row)]
  | (k', r') :: rest =>
    if k' = k then (k, row) :: rest else (k', r') :: upsertList k row rest

@[simp] theorem lookup_upsertList (k j : JVal) (row : ρ) (t : List (JVal × ρ)) :
    (upsertList k row t).lookup j = if j = k then some row else t.lookup j := by
  induction t with
  | nil =>
    by_cases h : j = k
    · subst h; simp [upsertList, List.lookup]
    · have hb : (j == k) = false := by simp [h]
      simp [upsertList, List.lookup, hb, h]
  | cons p rest ih =>
    obtain ⟨k', r'⟩ := p
    by_cases hk : k' = k
    · subst hk
      by_cases h : j = k'
      · subst h; simp [upsertList, List.lookup]
      · have hb : (j == k') = false := by simp [h]
        simp [upsertList, List.lookup, hb, h]
    · by_cases h : j = k'
      · subst h
        have hjk : ¬j = k := fun h' => hk h'
        simp [upsertList, List.lookup, hk, hjk]
      · have hb : (j == k') = false := by simp [h]
        simp [upsertList, List.lookup, hk, hb, h, ih]

/-- Creation or update of a `Regiao` row, mirroring
`Regiao.objects.update_or_create(id=..., defaults=...)`: the creation
timestamp is preserved on update, the update timestamp is set to the
save clock, and the clock advances. -/
def saveRegiao (i s n : JVal) (db : DB) : (JVal × RegiaoRow) × DB :=
  let row : RegiaoRow :=
    { sigla := s, nome := n,
      createdAt := ((db.regioes.lookup i).map RegiaoRow.createdAt).getD db.clock,
      updatedAt := db.clock }
  ((i, row), { db with clock := db.clock + 1, regioes := upsertList i row db.regioes })

/-- Embedding of `_ensure_regiao` (`core/services/ibge.py`): read
`data["id"]`, `data.get("sigla", "")`, `data.get("nome", "")` and upsert
the region row, returning the persisted object. -/
def ensure_regiao (data : JVal) (db : DB) : Except PyErr (JVal × RegiaoRow) × DB :=
  match data.item "id", data.getD "sigla" (.jstr ""), data.getD "nome" (.jstr "") with
  | .ok i, .ok s, .ok n => (fun p => (Except.ok p.1, p.2)) (saveRegiao i s n db)
  | .error e, _, _ => (.error e, db)
  | _, .error e, _ => (.error e, db)
  | _, _, .error e => (.error e, db)

/-- Resolution of the optional parent region of a state payload:
`regiao = _ensure_regiao(regiao_data) if regiao_data else None`. -/
def ensureParentRegiao (rd : JVal) (db : DB) : Except PyErr (Option JVal) × DB :=
  if rd.truthy then
    match ensure_regiao rd db with
    | (.error e, db1) => (.error e, db1)
    | (.ok r, db1) => (.ok (some r.1), db1)
  else (.ok none, db)

/-- Save of an `Estado` row.  The foreign-key column `regiao` is
non-nullable and references `Regiao`, so the save checks that the
region key exists; a missing parent surfaces as the database integrity
error raised by the `INSERT`/`UPDATE`. -/
def saveEstado (i s n ri : JVal) (db : DB) : Except PyErr (JVal × EstadoRow) × DB :=
  if (db.regioes.lookup ri).isSome then
    let row : EstadoRow :=
      { sigla := s, nome := n, regiao := ri,
        createdAt := ((db.estados.lookup i).map EstadoRow.createdAt).getD db.clock,
        updatedAt := db.clock }
    (.ok (i, row), { db with clock := db.clock + 1, estados := upsertList i row db.estados })
  else (.error .integrityError, db)

/-- Embedding of `_ensure_estado`: resolve `data.get("regiao")`, ensure
it when truthy, then upsert the state by `data["id"]` with abbreviation,
name and the region reference.  A `None` region reference fails at save
time with an integrity error because the column is non-nullable. -/
def ensure_estado (data : JVal) (db : DB) : Except PyErr (JVal × EstadoRow) × DB :=
  match data.get "regiao" with
  | .error e => (.error e, db)
  | .ok rd =>
    match ensureParentRegiao rd db with
    | (.error e, db1) => (.error e, db1)
    | (.ok fk, db1) =>
      match data.item "id", data.getD "sigla" (.jstr ""), data.getD "nome" (.jstr "") with
      | .ok i, .ok s, .ok n =>
        match fk with
        | none => (.error .integrityError, db1)
        | some ri => saveEstado i s n ri db1
      | .error e, _, _ => (.error e, db1)
      | _, .error e, _ => (.error e, db1)
      | _, _, .error e => (.error e, db1)

/-- Extraction of the UF payload of a municipality, mirroring the
`or`-chained expression of `_ensure_municipio`:
`data.get("microrregiao", {}).get("mesorregiao", {}).get("UF") or
data.get("regiao-imediata", {}).get("regiao-intermediaria", {}).get("UF")`.
Python evaluates the left chain first and only evaluates the right chain
when the left value is falsy; `.get` on a non-dict (for example `None`)
raises an `AttributeError`. -/
def extractUF (data : JVal) : Except PyErr JVal :=
  match data.getD "microrregiao" (.jobj .nil) with
  | .error e => .error e
  | .ok m1 =>
    match m1.getD "mesorregiao" (.jobj .nil) with
    | .error e => .error e
    | .ok m2 =>
      match m2.get "UF" with
      | .error e => .error e
      | .ok left =>
        if left.truthy then .ok left
        else
          match data.getD "regiao-imediata" (.jobj .nil) with
          | .error e => .error e
          | .ok r1 =>
            match r1.getD "regiao-intermediaria" (.jobj .nil) with
            | .error e => .error e
            | .ok r2 => r2.get "UF"

/-- Resolution of the optional parent state of a municipality payload:
`estado = _ensure_estado(uf) if uf else None`. -/
def ensureParentEstado (uf : JVal) (db : DB) : Except PyErr (Option JVal) × DB :=
  if uf.truthy then
    match ensure_estado uf db with
    | (.error e, db1) => (.error e, db1)
    | (.ok r, db1) => (.ok (some r.1), db1)
  else (.ok none, db)

/-- Save of a `Municipio` row; the `estado` column is non-nullable and
references `Estado`. -/
def saveMunicipio (i n ei : JVal) (db : DB) : Except PyErr (JVal × MunicipioRow) × DB :=
  if (db.estados.lookup ei).isSome then
    let row : MunicipioRow :=
      { nome := n, estado := ei,
        createdAt := ((db.municipios.lookup i).map MunicipioRow.createdAt).getD db.clock,
        updatedAt := db.clock }
    (.ok (i, row), { db with clock := db.clock + 1, municipios := upsertList i row db.municipios })
  else (.error .integrityError, db)

/-- Embedding of `_ensure_municipio`: extract the UF payload, ensure the
state when the extracted value is truthy, then upsert the municipality
by `data["id"]` with its name and state reference.  A `None` state
reference fails at save time with an integrity error. -/
def ensure_municipio (data : JVal) (db : DB) : Except PyErr (JVal × MunicipioRow) × DB :=
  match extractUF data with
  | .error e => (.error e, db)
  | .ok uf =>
    match ensureParentEstado uf db with
    | (.error e, db1) => (.error e, db1)
    | (.ok fk, db1) =>
      match data.item "id", data.getD "nome" (.jstr "") with
      | .ok i, .ok n =>
        match fk with
        | none => (.error .integrityError, db1)
        | some ei => saveMunicipio i n ei db1
      | .error e, _ => (.error e, db1)
      | _, .error e => (.error e, db1)

/-- HTTP GET request issued by `_request`: the endpoint path after the
base URL and the query parameters. -/
structure Request where
  endpoint : String
  params : List (String × String)
deriving DecidableEq, Repr

/-- Query parameters hard-coded by all three fetch helpers just before
calling `_request`. -/
def fixedParams : List (String × String) := [("orderBy", "nome"), ("view", "nivelado")]

/-- Python truthiness of an optional integer argument (`if regiao_id:`):
`None` and `0` are falsy. -/
def optIdTruthy : Option Int → Bool
  | none => false
  | some i => i != 0

/-- String interpolation of an optional id into an f-string path; only
used under `optIdTruthy`. -/
def optIdStr : Option Int → String
  | none => ""
  | some i => toString i

/-- Embedding of `get_regioes` (`core/services/ibge.py`): endpoint
selection by truthiness of `regiao_id`; the caller-supplied `params`
argument is overwritten by the hard-coded dictionary before the
request. -/
def get_regioes (regiao_id : Option Int) (params : Option (List (String × String))) :
    Request :=
  { endpoint := if optIdTruthy regiao_id then "regioes/" ++ optIdStr regiao_id else "regioes",
    params := fixedParams }

/-- Embedding of `get_estados`: a truthy `estado_id` selects the
single-state endpoint, otherwise a truthy `regiao_id` selects the
nested collection, otherwise the full collection; `params` is
overwritten. -/
def get_estados (estado_id regiao_id : Option Int)
    (params : Option (List (String × String))) : Request :=
  { endpoint :=
      if optIdTruthy estado_id then "estados/" ++ optIdStr estado_id
      else if optIdTruthy regiao_id then "regioes/" ++ optIdStr regiao_id ++ "/estados"
      else "estados",
    params := fixedParams }

/-- Embedding of `get_municipios`: a truthy `municipio_id` selects the
single-municipality endpoint, otherwise a truthy `estado_id` selects
the nested collection, otherwise the full collection; `params` is
overwritten. -/
def get_municipios (municipio_id estado_id : Option Int)
    (params : Option (List (String × String))) : Request :=
  { endpoint :=
      if optIdTruthy municipio_id then "municipios/" ++ optIdStr municipio_id
      else if optIdTruthy estado_id then "estados/" ++ optIdStr estado_id ++ "/municipios"
      else "municipios",
    params := fixedParams }

/-- Embedding of `_normalize_payload`: a list response is flattened to
its elements, any other response becomes a one-element list. -/
def normalize_payload : JVal → List JVal
  | .jarr xs => xs.toList
  | v => [v]

/-- Python truthiness of the optional `ids` iterable (`if ids:`): both
`None` and an empty list are falsy. -/
def idsTruthy : Option (List Int) → Bool
  | none => false
  | some l => !l.isEmpty

/-- Sequential reconciliation of a payload list (the list comprehension
inside `transaction.atomic()`): each item is ensured in order, threading
the store; the first raised error aborts the rest, leaving the writes
performed so far in the returned store (rollback is the wrapper's
job). -/
def ensureAll (f : JVal → DB → Except PyErr α × DB) :
    List JVal → DB → Except PyErr (List α) × DB
  | [], db => (.ok [], db)
  | d :: rest, db =>
    match f d db with
    | (.error e, db1) => (.error e, db1)
    | (.ok r, db1) =>
      match ensureAll f rest db1 with
      | (.error e, db2) => (.error e, db2)
      | (.ok rs, db2) => (.ok (r :: rs), db2)

/-- Semantics of `with transaction.atomic():` wrapping a body that may
raise: on success the body's writes are committed, on an error the
store is rolled back to its state at entry and the error propagates. -/
def atomicRun (body : DB → Except PyErr α × DB) (db : DB) : Except PyErr α × DB :=
  match body db with
  | (.error e, _) => (.error e, db)
  | (.ok a, db') => (.ok a, db')

/-- Payload assembled by `sync_regioes` before the transaction: with a
truthy `ids` iterable, one fetch per id (each normalised and
concatenated); otherwise a single fetch by `regiao_id`.  `api` is the
remote service mapping a request to its JSON response. -/
def sync_regioes_payload (regiao_id : Option Int) (ids : Option (List Int))
    (params : Option (List (String × String))) (api : Request → JVal) : List JVal :=
  if idsTruthy ids then
    ((ids.getD []).map (fun i => normalize_payload (api (get_regioes (some i) params)))).flatten
  else
    normalize_payload (api (get_regioes regiao_id params))

/-- Embedding of `sync_regioes`: fetch, then reconcile every payload
item inside one atomic transaction, returning the persisted regions in
fetch order. -/
def sync_regioes (regiao_id : Option Int) (ids : Option (List Int))
    (params : Option (List (String × String))) (api : Request → JVal) (db : DB) :
    Except PyErr (List (JVal × RegiaoRow)) × DB :=
  atomicRun (ensureAll ensure_regiao (sync_regioes_payload regiao_id ids params api)) db

/-- Payload assembled by `sync_estados`; in the `ids` branch the region
argument passed to `get_estados` is `None`. -/
def sync_estados_payload (estado_id regiao_id : Option Int) (ids : Option (List Int))
    (params : Option (List (String × String))) (api : Request → JVal) : List JVal :=
  if idsTruthy ids then
    ((ids.getD []).map (fun i => normalize_payload (api (get_estados (some i) none params)))).flatten
  else
    normalize_payload (api (get_estados estado_id regiao_id params))

/-- Embedding of `sync_estados`. -/
def sync_estados (estado_id regiao_id : Option Int) (ids : Option (List Int))
    (params : Option (List (String × String))) (api : Request → JVal) (db : DB) :
    Except PyErr (List (JVal × EstadoRow)) × DB :=
  atomicRun (ensureAll ensure_estado (sync_estados_payload estado_id regiao_id ids params api)) db

/-- Payload assembled by `sync_municipios`; in the `ids` branch the
state argument passed to `get_municipios` is `None`. -/
def sync_municipios_payload (municipio_id estado_id : Option Int) (ids : Option (List Int))
    (params : Option (List (String × String))) (api : Request → JVal) : List JVal :=
  if idsTruthy ids then
    ((ids.getD []).map
      (fun i => normalize_payload (api (get_municipios (some i) none params)))).flatten
  else
    normalize_payload (api (get_municipios municipio_id estado_id params))

/-- Embedding of `sync_municipios`. -/
def sync_municipios (municipio_id estado_id : Option Int) (ids : Option (List Int))
    (params : Option (List (String × String))) (api : Request → JVal) (db : DB) :
    Except PyErr (List (JVal × MunicipioRow)) × DB :=
  atomicRun
    (ensureAll ensure_municipio (sync_municipios_payload municipio_id estado_id ids params api))
    db

/-! ### Helper lemmas about the store and the reconcilers -/

theorem lookup_map_core (g : ρ → σ) (t : List (JVal × ρ)) (j : JVal) :
    (t.map (fun p => (p.1, g p.2))).lookup j = (t.lookup j).map g := by
  induction t with
  | nil => simp [List.lookup]
  | cons p rest ih =>
    by_cases h : j = p.1
    · subst h; simp [List.lookup]
    · have hb : (j == p.1) = false := by simp [h]
      simp [List.lookup, hb, ih]

theorem map_upsertList (g : ρ → σ) (k : JVal) (row : ρ) (t : List (JVal × ρ)) :
    (upsertList k row t).map (fun p => (p.1, g p.2)) =
      upsertList k (g row) (t.map (fun p => (p.1, g p.2))) := by
  induction t with
  | nil => simp [upsertList]
  | cons p rest ih =>
    by_cases h : p.1 = k
    · simp [upsertList, h]
    · simp [upsertList, h, ih]

theorem upsertList_noop (k : JVal) (row : ρ) (t : List (JVal × ρ))
    (h : t.lookup k = some row) : upsertList k row t = t := by
  induction t with
  | nil => simp [List.lookup] at h
  | cons p rest ih =>
    obtain ⟨k', r'⟩ := p
    by_cases hk : k' = k
    · subst hk
      simp [List.lookup] at h
      simp [upsertList, h]
    · have hb : (k == k') = false := by
        simp
        exact fun h' => hk h'.symm
      simp [List.lookup, hb] at h
      simp [upsertList, hk, ih h]

/-- Subscription succeeding forces the value to be a dict, so `.get`
with any default succeeds as well. -/
theorem getD_ok_of_item_ok (data : JVal) (k : String) (v : JVal)
    (h : data.item k = .ok v) (k' : String) (dflt : JVal) :
    ∃ w, data.getD k' dflt = .ok w := by
  cases data <;> simp [JVal.item] at h <;> simp [JVal.getD]

/-- Frame property of `_ensure_regiao`: only the region table and the
clock can change. -/
theorem ensure_regiao_frame (d : JVal) (db : DB) :
    (ensure_regiao d db).2.estados = db.estados ∧
    (ensure_regiao d db).2.municipios = db.municipios := by
  unfold ensure_regiao
  split <;> simp [saveRegiao]

theorem ensureParentRegiao_frame (rd : JVal) (db : DB) :
    (ensureParentRegiao rd db).2.estados = db.estados ∧
    (ensureParentRegiao rd db).2.municipios = db.municipios := by
  have hfr := ensure_regiao_frame rd db
  cases ht : rd.truthy with
  | false => simp [ensureParentRegiao, ht]
  | true =>
    rcases hr : ensure_regiao rd db with ⟨res, db1⟩
    rw [hr] at hfr
    simp only [Prod.snd] at hfr
    cases res <;> simp [ensureParentRegiao, ht, hr, hfr.1, hfr.2]

/-- Frame property of `_ensure_estado`: the municipality table is never
touched. -/
theorem ensure_estado_frame (d : JVal) (db : DB) :
    (ensure_estado d db).2.municipios = db.municipios := by
  cases hg : d.get "regiao" with
  | error e => simp [ensure_estado, hg]
  | ok rd =>
    rcases hp : ensureParentRegiao rd db with ⟨res, db1⟩
    have hf := ensureParentRegiao_frame rd db
    rw [hp] at hf
    simp only [Prod.snd] at hf
    cases res with
    | error e => simp [ensure_estado, hg, hp, hf.2]
    | ok fk =>
      cases hi : d.item "id" with
      | error e => simp [ensure_estado, hg, hp, hi, hf.2]
      | ok i =>
        cases hs : d.getD "sigla" (.jstr "") with
        | error e => simp [ensure_estado, hg, hp, hi, hs, hf.2]
        | ok s =>
          cases hn : d.getD "nome" (.jstr "") with
          | error e => simp [ensure_estado, hg, hp, hi, hs, hn, hf.2]
          | ok n =>
            cases fk with
            | none => simp [ensure_estado, hg, hp, hi, hs, hn, hf.2]
            | some ri =>
              simp only [ensure_estado, hg, hp, saveEstado, hi, hs, hn]
              split <;> simp [hf.2]

/-- Complete characterisation of a successful `_ensure_regiao`. -/
theorem ensure_regiao_spec (d : JVal) (db : DB) (r : JVal × RegiaoRow) (db' : DB)
    (h : ensure_regiao d db = (.ok r, db')) :
    ∃ i s n,
      d.item "id" = .ok i ∧ d.getD "sigla" (.jstr "") = .ok s ∧
      d.getD "nome" (.jstr "") = .ok n ∧
      r = (i, { sigla := s, nome := n,
                createdAt := ((db.regioes.lookup i).map RegiaoRow.createdAt).getD db.clock,
                updatedAt := db.clock }) ∧
      db' = { db with clock := db.clock + 1, regioes := upsertList i r.2 db.regioes } := by
  cases hi : d.item "id" with
  | error e => simp [ensure_regiao, hi] at h
  | ok i =>
    cases hs : d.getD "sigla" (.jstr "") with
    | error e => simp [ensure_regiao, hi, hs] at h
    | ok s =>
      cases hn : d.getD "nome" (.jstr "") with
      | error e => simp [ensure_regiao, hi, hs, hn] at h
      | ok n =>
        simp only [ensure_regiao, hi, hs, hn, saveRegiao, Prod.mk.injEq, Except.ok.injEq] at h
        obtain ⟨hr, hdb⟩ := h
        exact ⟨i, s, n, rfl, rfl, rfl, hr.symm, by rw [← hr, ← hdb]⟩

/-- Table-level consequences of a successful `_ensure_regiao`: the
payload id keys the returned row, the row carries the payload fields,
only that key of the region table changes, and the other tables are
untouched. -/
theorem ensure_regiao_table (d : JVal) (db : DB) (r : JVal × RegiaoRow) (db' : DB)
    (h : ensure_regiao d db = (.ok r, db')) :
    d.item "id" = .ok r.1 ∧
    d.getD "sigla" (.jstr "") = .ok r.2.sigla ∧
    d.getD "nome" (.jstr "") = .ok r.2.nome ∧
    (∀ j, db'.regioes.lookup j = if j = r.1 then some r.2 else db.regioes.lookup j) ∧
    db'.estados = db.estados ∧ db'.municipios = db.municipios := by
  obtain ⟨i, s, n, hi, hs, hn, hr, hdb⟩ := ensure_regiao_spec d db r db' h
  subst hr
  subst hdb
  refine ⟨hi, hs, hn, ?_, rfl, rfl⟩
  intro j
  simp

/-- Complete characterisation of a successful `_ensure_estado`: the
nested region payload must have been truthy and successfully ensured
(otherwise the non-nullable `regiao` column would have rejected the
save), and the state row is upserted into the store left by the region
step. -/
theorem ensure_estado_spec (d : JVal) (db : DB) (r : JVal × EstadoRow) (db' : DB)
    (h : ensure_estado d db = (.ok r, db')) :
    ∃ rd rr db1 i s n,
      d.get "regiao" = .ok rd ∧ rd.truthy = true ∧
      ensure_regiao rd db = (.ok rr, db1) ∧
      d.item "id" = .ok i ∧ d.getD "sigla" (.jstr "") = .ok s ∧
      d.getD "nome" (.jstr "") = .ok n ∧
      (db1.regioes.lookup rr.1).isSome = true ∧
      r = (i, { sigla := s, nome := n, regiao := rr.1,
                createdAt := ((db1.estados.lookup i).map EstadoRow.createdAt).getD db1.clock,
                updatedAt := db1.clock }) ∧
      db' = { db1 with clock := db1.clock + 1, estados := upsertList i r.2 db1.estados } := by
  cases hg : d.get "regiao" with
  | error e => simp [ensure_estado, hg] at h
  | ok rd =>
    cases ht : rd.truthy with
    | false =>
      simp only [ensure_estado, hg, ensureParentRegiao, ht] at h
      cases hi : d.item "id" with
      | error e => simp [hi] at h
      | ok i =>
        cases hs : d.getD "sigla" (.jstr "") with
        | error e => simp [hi, hs] at h
        | ok s =>
          cases hn : d.getD "nome" (.jstr "") with
          | error e => simp [hi, hs, hn] at h
          | ok n => simp [hi, hs, hn] at h
    | true =>
      rcases hr : ensure_regiao rd db with ⟨res, db1⟩
      cases res with
      | error e => simp [ensure_estado, hg, ensureParentRegiao, ht, hr] at h
      | ok rr =>
        cases hi : d.item "id" with
        | error e => simp [ensure_estado, hg, ensureParentRegiao, ht, hr, hi] at h
        | ok i =>
          cases hs : d.getD "sigla" (.jstr "") with
          | error e => simp [ensure_estado, hg, ensureParentRegiao, ht, hr, hi, hs] at h
          | ok s =>
            cases hn : d.getD "nome" (.jstr "") with
            | error e => simp [ensure_estado, hg, ensureParentRegiao, ht, hr, hi, hs, hn] at h
            | ok n =>
              cases hl : (db1.regioes.lookup rr.1).isSome with
              | false =>
                simp [ensure_estado, hg, ensureParentRegiao, ht, hr, hi, hs, hn,
                  saveEstado, hl] at h
              | true =>
                simp only [ensure_estado, hg, ensureParentRegiao, ht, hr, hi, hs, hn,
                  saveEstado, hl, if_true, Prod.mk.injEq, Except.ok.injEq] at h
                obtain ⟨hrr, hdb⟩ := h
                exact ⟨rd, rr, db1, i, s, n, rfl, ht, hr, rfl, rfl, rfl, hl,
                  hrr.symm, by rw [← hrr, ← hdb]⟩

/-- Table-level consequences of a successful `_ensure_estado`. -/
theorem ensure_estado_table (d : JVal) (db : DB) (r : JVal × EstadoRow) (db' : DB)
    (h : ensure_estado d db = (.ok r, db')) :
    d.item "id" = .ok r.1 ∧
    d.getD "sigla" (.jstr "") = .ok r.2.sigla ∧
    d.getD "nome" (.jstr "") = .ok r.2.nome ∧
    (∀ j, db'.estados.lookup j = if j = r.1 then some r.2 else db.estados.lookup j) ∧
    db'.municipios = db.municipios := by
  obtain ⟨rd, rr, db1, i, s, n, hg, ht, hr, hi, hs, hn, hl, hrr, hdb⟩ :=
    ensure_estado_spec d db r db' h
  have hfr := ensure_regiao_frame rd db
  rw [hr] at hfr
  simp only [Prod.snd] at hfr
  subst hrr
  subst hdb
  refine ⟨hi, hs, hn, ?_, hfr.2⟩
  intro j
  simp [hfr.1]

/-- Complete characterisation of a successful `_ensure_municipio`: the
extracted UF payload must have been truthy and successfully ensured
(otherwise the non-nullable `estado` column would have rejected the
save), and the municipality row is upserted into the store left by the
state step. -/
theorem ensure_municipio_spec (d : JVal) (db : DB) (r : JVal × MunicipioRow) (db' : DB)
    (h : ensure_municipio d db = (.ok r, db')) :
    ∃ uf er db1 i n,
      extractUF d = .ok uf ∧ uf.truthy = true ∧
      ensure_estado uf db = (.ok er, db1) ∧
      d.item "id" = .ok i ∧ d.getD "nome" (.jstr "") = .ok n ∧
      (db1.estados.lookup er.1).isSome = true ∧
      r = (i, { nome := n, estado := er.1,
                createdAt := ((db1.municipios.lookup i).map MunicipioRow.createdAt).getD db1.clock,
                updatedAt := db1.clock }) ∧
      db' = { db1 with clock := db1.clock + 1, municipios := upsertList i r.2 db1.municipios } := by
  cases hx : extractUF d with
  | error e => simp [ensure_municipio, hx] at h
  | ok uf =>
    cases ht : uf.truthy with
    | false =>
      simp only [ensure_municipio, hx, ensureParentEstado, ht] at h
      cases hi : d.item "id" with
      | error e => simp [hi] at h
      | ok i =>
        cases hn : d.getD "nome" (.jstr "") with
        | error e => simp [hi, hn] at h
        | ok n => simp [hi, hn] at h
    | true =>
      rcases he : ensure_estado uf db with ⟨res, db1⟩
      cases res with
      | error e => simp [ensure_municipio, hx, ensureParentEstado, ht, he] at h
      | ok er =>
        cases hi : d.item "id" with
        | error e => simp [ensure_municipio, hx, ensureParentEstado, ht, he, hi] at h
        | ok i =>
          cases hn : d.getD "nome" (.jstr "") with
          | error e => simp [ensure_municipio, hx, ensureParentEstado, ht, he, hi, hn] at h
          | ok n =>
            cases hl : (db1.estados.lookup er.1).isSome with
            | false =>
              simp [ensure_municipio, hx, ensureParentEstado, ht, he, hi, hn,
                saveMunicipio, hl] at h
            | true =>
              simp only [ensure_municipio, hx, ensureParentEstado, ht, he, hi, hn,
                saveMunicipio, hl, if_true, Prod.mk.injEq, Except.ok.injEq] at h
              obtain ⟨hrr, hdb⟩ := h
              exact ⟨uf, er, db1, i, n, rfl, ht, he, rfl, rfl, hl,
                hrr.symm, by rw [← hrr, ← hdb]⟩

/-- Table-level consequences of a successful `_ensure_municipio`. -/
theorem ensure_municipio_table (d : JVal) (db : DB) (r : JVal × MunicipioRow) (db' : DB)
    (h : ensure_municipio d db = (.ok r, db')) :
    d.item "id" = .ok r.1 ∧
    d.getD "nome" (.jstr "") = .ok r.2.nome ∧
    (∀ j, db'.municipios.lookup j = if j = r.1 then some r.2 else db.municipios.lookup j) := by
  obtain ⟨uf, er, db1, i, n, hx, ht, he, hi, hn, hl, hrr, hdb⟩ :=
    ensure_municipio_spec d db r db' h
  have hfe := ensure_estado_frame uf db
  rw [he] at hfe
  simp only [Prod.snd] at hfe
  subst hrr
  subst hdb
  refine ⟨hi, hn, ?_⟩
  intro j
  simp [hfe]

/-- Bool test whether a payload object carries the given id. -/
def hasId (j : JVal) (d : JVal) : Bool :=
  match d.item "id" with
  | .ok i => i = j
  | .error _ => false

/-- Last payload object with a given id: with upsert-by-id semantics and
no dedup, this occurrence is the one whose fields survive. -/
def lastWithId (j : JVal) (pl : List JVal) : Option JVal :=
  (pl.filter (hasId j)).getLast?

theorem getLast?_cons_ne_nil (a : α) (l : List α) (h : l ≠ []) :
    (a :: l).getLast? = l.getLast? := by
  cases l with
  | nil => exact absurd rfl h
  | cons b m => simp [List.getLast?_cons_cons]

section EnsureAllGeneric

variable {ρ : Type} {f : JVal → DB → Except PyErr (JVal × ρ) × DB}
variable {T : DB → List (JVal × ρ)} {P : JVal → ρ → Prop}

/-- Inversion of one step of `ensureAll` on a cons cell. -/
theorem ensureAll_cons_ok {d : JVal} {rest : List JVal} {db : DB}
    {rs : List (JVal × ρ)} {db' : DB}
    (h : ensureAll f (d :: rest) db = (.ok rs, db')) :
    ∃ r db1 rs', f d db = (.ok r, db1) ∧ ensureAll f rest db1 = (.ok rs', db') ∧
      rs = r :: rs' := by
  rcases h1 : f d db with ⟨res1, db1⟩
  cases res1 with
  | error e => simp [ensureAll, h1] at h
  | ok r =>
    rcases h2 : ensureAll f rest db1 with ⟨res2, db2⟩
    cases res2 with
    | error e => simp [ensureAll, h1, h2] at h
    | ok rs' =>
      simp only [ensureAll, h1, h2, Prod.mk.injEq, Except.ok.injEq] at h
      exact ⟨r, db1, rs', rfl, by rw [h2, h.2], h.1.symm⟩

/-- Each successfully reconciled payload item yields exactly one
returned entity, in order, keyed by the item's id and satisfying the
field relation `P`. -/
theorem ensureAll_forall2
    (hf : ∀ d db r db', f d db = (.ok r, db') →
      d.item "id" = .ok r.1 ∧ P d r.2 ∧
      ∀ j, (T db').lookup j = if j = r.1 then some r.2 else (T db).lookup j)
    (pl : List JVal) (db : DB) (rs : List (JVal × ρ)) (db' : DB)
    (h : ensureAll f pl db = (.ok rs, db')) :
    List.Forall₂ (fun r d => d.item "id" = .ok r.1 ∧ P d r.2) rs pl := by
  induction pl generalizing db rs with
  | nil =>
    simp only [ensureAll, Prod.mk.injEq, Except.ok.injEq] at h
    rw [← h.1]
    exact List.Forall₂.nil
  | cons d rest ih =>
    obtain ⟨r, db1, rs', h1, h2, hrs⟩ := ensureAll_cons_ok h
    subst hrs
    exact List.Forall₂.cons ⟨(hf d db r db1 h1).1, (hf d db r db1 h1).2.1⟩ (ih db1 rs' h2)

/-- A key carried by no payload item is untouched in the level's table. -/
theorem ensureAll_untouched
    (hf : ∀ d db r db', f d db = (.ok r, db') →
      d.item "id" = .ok r.1 ∧ P d r.2 ∧
      ∀ j, (T db').lookup j = if j = r.1 then some r.2 else (T db).lookup j)
    (pl : List JVal) (db : DB) (rs : List (JVal × ρ)) (db' : DB)
    (h : ensureAll f pl db = (.ok rs, db')) (j : JVal)
    (hj : ∀ d ∈ pl, hasId j d = false) :
    (T db').lookup j = (T db).lookup j := by
  induction pl generalizing db rs with
  | nil =>
    simp only [ensureAll, Prod.mk.injEq, Except.ok.injEq] at h
    rw [← h.2]
  | cons d rest ih =>
    obtain ⟨r, db1, rs', h1, h2, hrs⟩ := ensureAll_cons_ok h
    obtain ⟨hid, _, hlook⟩ := hf d db r db1 h1
    have hd0 := hj d (List.mem_cons_self d rest)
    rw [hasId, hid] at hd0
    have hne : ¬j = r.1 := by
      intro hjr
      simp [hjr] at hd0
    calc (T db').lookup j = (T db1).lookup j :=
          ih db1 rs' h2 (fun x hx => hj x (List.mem_cons_of_mem d hx))
      _ = (T db).lookup j := by rw [hlook j, if_neg hne]

/-- Last-occurrence-wins: when the same id occurs several times in the
payload, the persisted row's fields after a successful run are those of
the last occurrence. -/
theorem ensureAll_last_wins
    (hf : ∀ d db r db', f d db = (.ok r, db') →
      d.item "id" = .ok r.1 ∧ P d r.2 ∧
      ∀ j, (T db').lookup j = if j = r.1 then some r.2 else (T db).lookup j)
    (pl : List JVal) (db : DB) (rs : List (JVal × ρ)) (db' : DB)
    (h : ensureAll f pl db = (.ok rs, db')) (j : JVal) (d : JVal)
    (hd : lastWithId j pl = some d) :
    ∃ row, (T db').lookup j = some row ∧ P d row := by
  induction pl generalizing db rs with
  | nil => simp [lastWithId] at hd
  | cons d0 rest ih =>
    obtain ⟨r, db1, rs', h1, h2, hrs⟩ := ensureAll_cons_ok h
    cases hrest : lastWithId j rest with
    | some d' =>
      have hne : rest.filter (hasId j) ≠ [] := by
        intro hnil
        rw [lastWithId, hnil] at hrest
        simp at hrest
      have : lastWithId j (d0 :: rest) = lastWithId j rest := by
        rw [lastWithId, List.filter_cons]
        split
        · rw [getLast?_cons_ne_nil _ _ hne, lastWithId]
        · rw [lastWithId]
      rw [this, hrest] at hd
      cases hd
      exact ih db1 rs' h2 hrest
    | none =>
      have hnil : rest.filter (hasId j) = [] := List.getLast?_eq_none_iff.mp hrest
      cases h0 : hasId j d0 with
      | false =>
        rw [lastWithId, List.filter_cons, h0] at hd
        simp only [Bool.false_eq_true, if_false] at hd
        rw [hnil] at hd
        simp at hd
      | true =>
        rw [lastWithId, List.filter_cons, h0] at hd
        simp only [if_true] at hd
        rw [hnil] at hd
        simp only [List.getLast?] at hd
        cases hd
        obtain ⟨hid, hP, hlook⟩ := hf d0 db r db1 h1
        rw [hasId, hid] at h0
        have hjr : j = r.1 := by
          by_cases hc : r.1 = j
          · exact hc.symm
          · simp [hc] at h0
        have huntouched : (T db').lookup j = (T db1).lookup j :=
          ensureAll_untouched hf rest db1 rs' db' h2 j
            (fun x hx => by
              have := List.filter_eq_nil_iff.mp hnil x hx
              cases hb : hasId j x
              · rfl
              · exact absurd hb this)
        refine ⟨r.2, ?_, hP⟩
        rw [huntouched, hlook j, if_pos hjr]

end EnsureAllGeneric

/-! ### Domain-field projections: the store up to audit timestamps -/

/-- Domain fields of a region row (everything except the audit
timestamps). -/
def RegiaoRow.core (r : RegiaoRow) : JVal × JVal := (r.sigla, r.nome)

/-- Domain fields of a state row. -/
def EstadoRow.core (r : EstadoRow) : JVal × JVal × JVal := (r.sigla, r.nome, r.regiao)

/-- Domain fields of a municipality row. -/
def MunicipioRow.core (r : MunicipioRow) : JVal × JVal := (r.nome, r.estado)

/-- Table with every row projected to its domain fields. -/
def coreTable (g : ρ → σ) (t : List (JVal × ρ)) : List (JVal × σ) :=
  t.map (fun p => (p.1, g p.2))

theorem coreTable_upsertList (g : ρ → σ) (k : JVal) (row : ρ) (t : List (JVal × ρ)) :
    coreTable g (upsertList k row t) = upsertList k (g row) (coreTable g t) :=
  map_upsertList g k row t

theorem lookup_coreTable (g : ρ → σ) (t : List (JVal × ρ)) (j : JVal) :
    (coreTable g t).lookup j = (t.lookup j).map g :=
  lookup_map_core g t j

theorem isSome_lookup_coreTable (g : ρ → σ) (t : List (JVal × ρ)) (j : JVal) :
    ((coreTable g t).lookup j).isSome = (t.lookup j).isSome := by
  rw [lookup_coreTable]
  cases t.lookup j <;> simp

/-- Re-running `_ensure_regiao` against any store whose region table
already agrees (up to timestamps) with the table the first run
produced succeeds again, writes the same id and domain fields, and
changes nothing but the timestamps. -/
theorem ensure_regiao_stable (d : JVal) (db db' : DB) (r : JVal × RegiaoRow)
    (h : ensure_regiao d db = (.ok r, db')) (dbX : DB)
    (hX : coreTable RegiaoRow.core dbX.regioes = coreTable RegiaoRow.core db'.regioes) :
    ∃ r2 dbX', ensure_regiao d dbX = (.ok r2, dbX') ∧ r2.1 = r.1 ∧
      RegiaoRow.core r2.2 = RegiaoRow.core r.2 ∧
      coreTable RegiaoRow.core dbX'.regioes = coreTable RegiaoRow.core dbX.regioes ∧
      dbX'.estados = dbX.estados ∧ dbX'.municipios = dbX.municipios := by
  obtain ⟨i, s, n, hi, hs, hn, hr, hdb⟩ := ensure_regiao_spec d db r db' h
  have hXlook : (coreTable RegiaoRow.core dbX.regioes).lookup i = some (s, n) := by
    rw [hX, hdb]
    subst hr
    simp only [coreTable_upsertList]
    rw [lookup_upsertList]
    simp [RegiaoRow.core]
  refine ⟨(i, { sigla := s, nome := n,
                createdAt := ((dbX.regioes.lookup i).map RegiaoRow.createdAt).getD dbX.clock,
                updatedAt := dbX.clock }),
    { dbX with
        clock := dbX.clock + 1,
        regioes := upsertList i
          { sigla := s, nome := n,
            createdAt := ((dbX.regioes.lookup i).map RegiaoRow.createdAt).getD dbX.clock,
            updatedAt := dbX.clock } dbX.regioes },
    ?_, ?_, ?_, ?_, rfl, rfl⟩
  · simp [ensure_regiao, hi, hs, hn, saveRegiao]
  · simp [hr]
  · simp [hr, RegiaoRow.core]
  · rw [coreTable_upsertList]
    exact upsertList_noop i _ _ hXlook

/-- Re-running `_ensure_estado` against any store whose region and
state tables already agree (up to timestamps) with the tables the
first run produced succeeds again with the same id and domain fields,
changing nothing but the timestamps. -/
theorem ensure_estado_stable (d : JVal) (db db' : DB) (r : JVal × EstadoRow)
    (h : ensure_estado d db = (.ok r, db')) (dbX : DB)
    (hXr : coreTable RegiaoRow.core dbX.regioes = coreTable RegiaoRow.core db'.regioes)
    (hXe : coreTable EstadoRow.core dbX.estados = coreTable EstadoRow.core db'.estados) :
    ∃ r2 dbX', ensure_estado d dbX = (.ok r2, dbX') ∧ r2.1 = r.1 ∧
      EstadoRow.core r2.2 = EstadoRow.core r.2 ∧
      coreTable RegiaoRow.core dbX'.regioes = coreTable RegiaoRow.core dbX.regioes ∧
      coreTable EstadoRow.core dbX'.estados = coreTable EstadoRow.core dbX.estados ∧
      dbX'.municipios = dbX.municipios := by
  obtain ⟨rd, rr, db1, i, s, n, hg, ht, hr1, hi, hs, hn, hl, hrr, hdb⟩ :=
    ensure_estado_spec d db r db' h
  have hXr1 : coreTable RegiaoRow.core dbX.regioes = coreTable RegiaoRow.core db1.regioes := by
    rw [hXr, hdb]
  obtain ⟨rr2, dbX1, hr2, hkey, _, hXr1', hest, hmun⟩ :=
    ensure_regiao_stable rd db db1 rr hr1 dbX hXr1
  have hlX : (dbX1.regioes.lookup rr.1).isSome = true := by
    rw [← isSome_lookup_coreTable RegiaoRow.core, hXr1', hXr1, isSome_lookup_coreTable]
    exact hl
  have hXelook : (coreTable EstadoRow.core dbX1.estados).lookup i = some (s, n, rr.1) := by
    rw [hest, hXe, hdb]
    simp only [coreTable_upsertList, lookup_upsertList]
    simp [hrr, EstadoRow.core]
  refine ⟨(i, { sigla := s, nome := n, regiao := rr.1,
                createdAt := ((dbX1.estados.lookup i).map EstadoRow.createdAt).getD dbX1.clock,
                updatedAt := dbX1.clock }),
    { dbX1 with
        clock := dbX1.clock + 1,
        estados := upsertList i
          { sigla := s, nome := n, regiao := rr.1,
            createdAt := ((dbX1.estados.lookup i).map EstadoRow.createdAt).getD dbX1.clock,
            updatedAt := dbX1.clock } dbX1.estados },
    ?_, ?_, ?_, ?_, ?_, ?_⟩
  · simp only [ensure_estado, hg, ensureParentRegiao, ht, if_true, hr2, hi, hs, hn,
      saveEstado, hkey, hlX, ite_true]
  · simp [hrr]
  · simp [hrr, EstadoRow.core]
  · simpa using hXr1'
  · simp only [coreTable_upsertList, EstadoRow.core]
    rw [upsertList_noop i _ _ hXelook, hest]
  · simpa using hmun

/-- Re-running `_ensure_municipio` against any store that agrees with
the first run's result up to timestamps succeeds again with the same
id and domain fields, changing nothing but the timestamps. -/
theorem ensure_municipio_stable (d : JVal) (db db' : DB) (r : JVal × MunicipioRow)
    (h : ensure_municipio d db = (.ok r, db')) (dbX : DB)
    (hXr : coreTable RegiaoRow.core dbX.regioes = coreTable RegiaoRow.core db'.regioes)
    (hXe : coreTable EstadoRow.core dbX.estados = coreTable EstadoRow.core db'.estados)
    (hXm : coreTable MunicipioRow.core dbX.municipios =
      coreTable MunicipioRow.core db'.municipios) :
    ∃ r2 dbX', ensure_municipio d dbX = (.ok r2, dbX') ∧ r2.1 = r.1 ∧
      MunicipioRow.core r2.2 = MunicipioRow.core r.2 ∧
      coreTable RegiaoRow.core dbX'.regioes = coreTable RegiaoRow.core dbX.regioes ∧
      coreTable EstadoRow.core dbX'.estados = coreTable EstadoRow.core dbX.estados ∧
      coreTable MunicipioRow.core dbX'.municipios =
        coreTable MunicipioRow.core dbX.municipios := by
  obtain ⟨uf, er, db1, i, n, hx, ht, he1, hi, hn, hl, hrr, hdb⟩ :=
    ensure_municipio_spec d db r db' h
  have hXr1 : coreTable RegiaoRow.core dbX.regioes = coreTable RegiaoRow.core db1.regioes := by
    rw [hXr, hdb]
  have hXe1 : coreTable EstadoRow.core dbX.estados = coreTable EstadoRow.core db1.estados := by
    rw [hXe, hdb]
  obtain ⟨er2, dbX1, he2, hkey, _, hXr1', hXe1', hmun⟩ :=
    ensure_estado_stable uf db db1 er he1 dbX hXr1 hXe1
  have hlX : (dbX1.estados.lookup er.1).isSome = true := by
    rw [← isSome_lookup_coreTable EstadoRow.core, hXe1', hXe1, isSome_lookup_coreTable]
    exact hl
  have hXmlook : (coreTable MunicipioRow.core dbX1.municipios).lookup i = some (n, er.1) := by
    rw [hmun, hXm, hdb]
    simp only [coreTable_upsertList, lookup_upsertList]
    simp [hrr, MunicipioRow.core]
  refine ⟨(i, { nome := n, estado := er.1,
                createdAt :=
                  ((dbX1.municipios.lookup i).map MunicipioRow.createdAt).getD dbX1.clock,
                updatedAt := dbX1.clock }),
    { dbX1 with
        clock := dbX1.clock + 1,
        municipios := upsertList i
          { nome := n, estado := er.1,
            createdAt := ((dbX1.municipios.lookup i).map MunicipioRow.createdAt).getD dbX1.clock,
            updatedAt := dbX1.clock } dbX1.municipios },
    ?_, ?_, ?_, ?_, ?_, ?_⟩
  · simp only [ensure_municipio, hx, ensureParentEstado, ht, if_true, he2, hi, hn,
      saveMunicipio, hkey, hlX, ite_true]
  · simp [hrr]
  · simp [hrr, MunicipioRow.core]
  · simpa using hXr1'
  · simpa using hXe1'
  · simp only [coreTable_upsertList, MunicipioRow.core]
    rw [upsertList_noop i _ _ hXmlook, hmun]

/-- Rollback direction of the transaction semantics: an error inside
the body leaves the store untouched. -/
theorem atomicRun_error (body : DB → Except PyErr α × DB) (db : DB) (e : PyErr)
    (h : (atomicRun body db).1 = .error e) : (atomicRun body db).2 = db := by
  rcases hb : body db with ⟨res, db1⟩
  cases res with
  | error e' => simp [atomicRun, hb]
  | ok a => simp [atomicRun, hb] at h

/-- Commit direction of the transaction semantics: success exposes the
body's run unchanged. -/
theorem atomicRun_ok (body : DB → Except PyErr α × DB) (db db' : DB) (a : α)
    (h : atomicRun body db = (.ok a, db')) : body db = (.ok a, db') := by
  rcases hb : body db with ⟨res, db1⟩
  cases res with
  | error e => simp [atomicRun, hb] at h
  | ok a' =>
    simp only [atomicRun, hb, Prod.mk.injEq, Except.ok.injEq] at h
    rw [h.1, h.2]

/-- The `ensureAll` interface hypothesis, instantiated for regions. -/
theorem hf_regiao : ∀ (d : JVal) (db : DB) (r : JVal × RegiaoRow) (db' : DB),
    ensure_regiao d db = (.ok r, db') →
    d.item "id" = .ok r.1 ∧
    (d.getD "sigla" (.jstr "") = .ok r.2.sigla ∧ d.getD "nome" (.jstr "") = .ok r.2.nome) ∧
    ∀ j, db'.regioes.lookup j = if j = r.1 then some r.2 else db.regioes.lookup j := by
  intro d db r db' h
  obtain ⟨h1, h2, h3, h4, _, _⟩ := ensure_regiao_table d db r db' h
  exact ⟨h1, ⟨h2, h3⟩, h4⟩

/-- The `ensureAll` interface hypothesis, instantiated for states: the
returned row carries the payload's abbreviation and name, and its
region foreign key is the id of the payload's nested region object. -/
theorem hf_estado : ∀ (d : JVal) (db : DB) (r : JVal × EstadoRow) (db' : DB),
    ensure_estado d db = (.ok r, db') →
    d.item "id" = .ok r.1 ∧
    (d.getD "sigla" (.jstr "") = .ok r.2.sigla ∧ d.getD "nome" (.jstr "") = .ok r.2.nome ∧
      ∃ rd, d.get "regiao" = .ok rd ∧ rd.item "id" = .ok r.2.regiao) ∧
    ∀ j, db'.estados.lookup j = if j = r.1 then some r.2 else db.estados.lookup j := by
  intro d db r db' h
  obtain ⟨h1, h2, h3, h4, _⟩ := ensure_estado_table d db r db' h
  obtain ⟨rd, rr, db1, i, s, n, hg, ht, hr, hi, hs, hn, hl, hrr, hdb⟩ :=
    ensure_estado_spec d db r db' h
  have hrid : rd.item "id" = .ok rr.1 := (ensure_regiao_table rd db rr db1 hr).1
  refine ⟨h1, ⟨h2, h3, rd, hg, ?_⟩, h4⟩
  rw [hrr]
  exact hrid

/-- The `ensureAll` interface hypothesis, instantiated for
municipalities: the returned row carries the payload's name, and its
state foreign key is the id of the UF payload extracted from it. -/
theorem hf_municipio : ∀ (d : JVal) (db : DB) (r : JVal × MunicipioRow) (db' : DB),
    ensure_municipio d db = (.ok r, db') →
    d.item "id" = .ok r.1 ∧
    (d.getD "nome" (.jstr "") = .ok r.2.nome ∧
      ∃ uf, extractUF d = .ok uf ∧ uf.item "id" = .ok r.2.estado) ∧
    ∀ j, db'.municipios.lookup j = if j = r.1 then some r.2 else db.municipios.lookup j := by
  intro d db r db' h
  obtain ⟨h1, h2, h3⟩ := ensure_municipio_table d db r db' h
  obtain ⟨uf, er, db1, i, n, hx, ht, he, hi, hn, hl, hrr, hdb⟩ :=
    ensure_municipio_spec d db r db' h
  have heid : uf.item "id" = .ok er.1 := (ensure_estado_table uf db er db1 he).1
  refine ⟨h1, ⟨h2, uf, hx, ?_⟩, h3⟩
  rw [hrr]
  exact heid

/-! ### Concrete payloads used by counterexamples and witnesses -/

/-- Region payload `{"id": 1, "sigla": "N", "nome": "Norte"}`. -/
def regiaoNortePayload : JVal :=
  .jobj (.cons "id" (.jnum 1) (.cons "sigla" (.jstr "N") (.cons "nome" (.jstr "Norte") .nil)))

/-- Region payload `{"id": 4, "sigla": "S", "nome": "Sul"}`. -/
def regiaoSulPayload : JVal :=
  .jobj (.cons "id" (.jnum 4) (.cons "sigla" (.jstr "S") (.cons "nome" (.jstr "Sul") .nil)))

/-- Region payload `{"id": 3, "sigla": "SE", "nome": "Sudeste"}`. -/
def regiaoSudestePayload : JVal :=
  .jobj (.cons "id" (.jnum 3) (.cons "sigla" (.jstr "SE") (.cons "nome" (.jstr "Sudeste") .nil)))

/-- State payload for São Paulo with its nested region payload. -/
def estadoSPPayload : JVal :=
  .jobj (.cons "id" (.jnum 35) (.cons "sigla" (.jstr "SP")
    (.cons "nome" (.jstr "Sao Paulo") (.cons "regiao" regiaoSudestePayload .nil))))

/-- State payload `{"id": 33, "sigla": "RJ", "nome": "Rio de Janeiro"}`
with no nested region object. -/
def estadoRJSemRegiao : JVal :=
  .jobj (.cons "id" (.jnum 33) (.cons "sigla" (.jstr "RJ")
    (.cons "nome" (.jstr "Rio de Janeiro") .nil)))

/-- State payload `{"id": 13, "sigla": "AM", "nome": "Amazonas"}` with
no nested region object. -/
def estadoAMSemRegiao : JVal :=
  .jobj (.cons "id" (.jnum 13) (.cons "sigla" (.jstr "AM")
    (.cons "nome" (.jstr "Amazonas") .nil)))

/-- Municipality payload with no UF shape at all. -/
def municipioSemUF : JVal :=
  .jobj (.cons "id" (.jnum 1100015) (.cons "nome" (.jstr "Alta Floresta") .nil))

/-- Municipality payload with no UF shape at all (distinct input). -/
def municipioBrasilia : JVal :=
  .jobj (.cons "id" (.jnum 5300108) (.cons "nome" (.jstr "Brasilia") .nil))

/-- Municipality payload with no UF shape at all (witness input). -/
def municipioMaceio : JVal :=
  .jobj (.cons "id" (.jnum 2704302) (.cons "nome" (.jstr "Maceio") .nil))

/-- Municipality payload whose UF object lacks an `id` field. -/
def municipioFlorianopolis : JVal :=
  .jobj (.cons "id" (.jnum 4205407) (.cons "nome" (.jstr "Florianopolis")
    (.cons "microrregiao" (.jobj (.cons "mesorregiao"
      (.jobj (.cons "UF" (.jobj (.cons "sigla" (.jstr "SC") .nil)) .nil)) .nil)) .nil)))

/-- Municipality payload for São Paulo with the full
micro-region→meso-region→UF chain. -/
def municipioSaoPauloPayload : JVal :=
  .jobj (.cons "id" (.jnum 3550308) (.cons "nome" (.jstr "Sao Paulo")
    (.cons "microrregiao" (.jobj (.cons "mesorregiao"
      (.jobj (.cons "UF" estadoSPPayload .nil)) .nil)) .nil)))

/-- Municipality payload whose `"microrregiao"` key is present but
bound to `null`. -/
def municipioMicroNull : JVal :=
  .jobj (.cons "id" (.jnum 123) (.cons "microrregiao" JVal.null .nil))

/-! ### Claims -/

/-- C1 counterexample: a state payload carrying no nested region object
and a municipality payload yielding no state payload are NOT
"successfully persisted with a null parent reference": because
`Estado.regiao` and `Municipio.estado` are non-nullable foreign keys,
the upsert fails with the database integrity error and the store is
left unchanged. -/
theorem c1_counterexample :
    ensure_estado estadoRJSemRegiao emptyDB = (.error .integrityError, emptyDB) ∧
    ensure_municipio municipioSemUF emptyDB = (.error .integrityError, emptyDB) :=
  ⟨rfl, rfl⟩

/-- C1 (amended): for every state payload whose `"regiao"` value is
absent or falsy, and every municipality payload from which no truthy UF
payload is extracted, the reconciler passes a `None` parent to the
upsert and the save fails with a database integrity error (the parent
foreign keys are declared non-nullable in `core/models.py`); the child
is not persisted and the store is unchanged. -/
theorem c1_null_parent_rejected :
    (∀ data db rd i, data.get "regiao" = .ok rd → rd.truthy = false →
      data.item "id" = .ok i →
      ensure_estado data db = (.error .integrityError, db)) ∧
    (∀ data db uf i, extractUF data = .ok uf → uf.truthy = false →
      data.item "id" = .ok i →
      ensure_municipio data db = (.error .integrityError, db)) := by
  constructor
  · intro data db rd i hrd hft hid
    obtain ⟨s, hs⟩ := getD_ok_of_item_ok data "id" i hid "sigla" (.jstr "")
    obtain ⟨n, hn⟩ := getD_ok_of_item_ok data "id" i hid "nome" (.jstr "")
    simp [ensure_estado, hrd, ensureParentRegiao, hft, hid, hs, hn]
  · intro data db uf i hx hut hid
    obtain ⟨n, hn⟩ := getD_ok_of_item_ok data "id" i hid "nome" (.jstr "")
    simp [ensure_municipio, hx, ensureParentEstado, hut, hid, hn]

/-- C1 witness: the amended statement evaluated on a concrete state
payload with no nested region. -/
theorem c1_witness :
    ensure_estado estadoAMSemRegiao emptyDB = (.error .integrityError, emptyDB) :=
  c1_null_parent_rejected.1 estadoAMSemRegiao emptyDB .null (.jnum 13) rfl rfl rfl

/-- C2 counterexample: a municipality payload with no UF reference is
rejected with the database integrity error, and one whose UF object
lacks an `id` is rejected with a `KeyError`; neither error is a
validation error, so `_ensure_municipio` does not abort with a
validation error as claimed (no validation is performed). -/
theorem c2_counterexample :
    ensure_municipio municipioBrasilia emptyDB = (.error .integrityError, emptyDB) ∧
    ensure_municipio municipioFlorianopolis emptyDB = (.error (.keyError "id"), emptyDB) ∧
    PyErr.integrityError ≠ PyErr.validationError ∧
    PyErr.keyError "id" ≠ PyErr.validationError :=
  ⟨rfl, rfl, by decide, by decide⟩

/-- C2 (amended): for every municipality payload whose UF reference is
absent (falsy) or not a fully resolvable state payload, the reconciler
aborts without persisting the municipality — with the database
integrity error of the non-nullable `estado` column when the UF is
absent, or with the error raised while resolving a malformed UF — but
the error is never a Django validation error, because the code
performs no payload validation. -/
theorem c2_unresolvable_uf_aborts :
    (∀ data db uf i, extractUF data = .ok uf → uf.truthy = false →
      data.item "id" = .ok i →
      ensure_municipio data db = (.error .integrityError, db) ∧
      PyErr.integrityError ≠ PyErr.validationError) ∧
    (∀ data db uf e db1, extractUF data = .ok uf → uf.truthy = true →
      ensure_estado uf db = (.error e, db1) →
      ensure_municipio data db = (.error e, db1) ∧
      db1.municipios = db.municipios) := by
  constructor
  · intro data db uf i hx hut hid
    obtain ⟨n, hn⟩ := getD_ok_of_item_ok data "id" i hid "nome" (.jstr "")
    constructor
    · simp [ensure_municipio, hx, ensureParentEstado, hut, hid, hn]
    · decide
  · intro data db uf e db1 hx hut he
    constructor
    · simp [ensure_municipio, hx, ensureParentEstado, hut, he]
    · have hf := ensure_estado_frame uf db
      rw [he] at hf
      exact hf

/-- C2 witness: the amended statement evaluated on a concrete
municipality payload with no UF reference. -/
theorem c2_witness :
    ensure_municipio municipioMaceio emptyDB = (.error .integrityError, emptyDB) :=
  (c2_unresolvable_uf_aborts.1 municipioMaceio emptyDB .null (.jnum 2704302) rfl rfl rfl).1

/-- C3: every sync entry point (`sync_regioes` / `sync_estados` /
`sync_municipios`, in both the direct client and the
`DadosAbertosBrasil`-backed variant, which share the reconcilers and
the transaction wrapper) performs all reconciliation inside a single
atomic transaction: if reconciling any record raises, the store after
the failed call equals the store before it. -/
theorem c3_sync_atomic (db : DB) (api : Request → JVal)
    (p : Option (List (String × String))) :
    (∀ rid ids e, (sync_regioes rid ids p api db).1 = .error e →
      (sync_regioes rid ids p api db).2 = db) ∧
    (∀ eid rid ids e, (sync_estados eid rid ids p api db).1 = .error e →
      (sync_estados eid rid ids p api db).2 = db) ∧
    (∀ mid eid ids e, (sync_municipios mid eid ids p api db).1 = .error e →
      (sync_municipios mid eid ids p api db).2 = db) := by
  refine ⟨?_, ?_, ?_⟩
  · intro rid ids e h
    exact atomicRun_error _ db e h
  · intro eid rid ids e h
    exact atomicRun_error _ db e h
  · intro mid eid ids e h
    exact atomicRun_error _ db e h

/-- Remote response used by the C3 witness: a list of five region
objects whose third record lacks an id, so reconciliation of the third
record raises. -/
def apiFiveRegioes : Request → JVal := fun _ =>
  .jarr (.cons regiaoNortePayload (.cons regiaoSulPayload
    (.cons (.jobj (.cons "sigla" (.jstr "X") .nil))
      (.cons regiaoSudestePayload (.cons estadoRJSemRegiao .nil)))))

/-- C3 witness: reconciling the third of five fetched records raises,
and the whole call leaves the store exactly as it was. -/
theorem c3_witness :
    (sync_regioes none none none apiFiveRegioes emptyDB).1 = .error (.keyError "id") ∧
    (sync_regioes none none none apiFiveRegioes emptyDB).2 = emptyDB :=
  ⟨rfl, (c3_sync_atomic emptyDB apiFiveRegioes none).1 none none (.keyError "id") rfl⟩

/-- C4 counterexample: calling `_ensure_regiao` twice in a row with the
identical payload does NOT leave the persisted store identical to the
state after the first call: the second save refreshes the row's
`updated_at` audit column (`auto_now` in `TimeStamped`), so the store
differs. -/
theorem c4_counterexample :
    (ensure_regiao regiaoNortePayload
        (ensure_regiao regiaoNortePayload emptyDB).2).2 ≠
      (ensure_regiao regiaoNortePayload emptyDB).2 := by
  decide

/-- C4 (amended): calling `_ensure_regiao` / `_ensure_estado` /
`_ensure_municipio` twice in a row with the same payload leaves the
persisted store identical up to the audit timestamps: the second call
succeeds, returns the same id with the same domain fields, creates no
duplicate row and changes no domain field of any table — only the
update timestamps (and the save clock) move. -/
theorem c4_idempotent_up_to_timestamps :
    (∀ p db r db', ensure_regiao p db = (.ok r, db') →
      ∃ r2 db2, ensure_regiao p db' = (.ok r2, db2) ∧ r2.1 = r.1 ∧
        RegiaoRow.core r2.2 = RegiaoRow.core r.2 ∧
        coreTable RegiaoRow.core db2.regioes = coreTable RegiaoRow.core db'.regioes ∧
        coreTable EstadoRow.core db2.estados = coreTable EstadoRow.core db'.estados ∧
        coreTable MunicipioRow.core db2.municipios =
          coreTable MunicipioRow.core db'.municipios) ∧
    (∀ p db r db', ensure_estado p db = (.ok r, db') →
      ∃ r2 db2, ensure_estado p db' = (.ok r2, db2) ∧ r2.1 = r.1 ∧
        EstadoRow.core r2.2 = EstadoRow.core r.2 ∧
        coreTable RegiaoRow.core db2.regioes = coreTable RegiaoRow.core db'.regioes ∧
        coreTable EstadoRow.core db2.estados = coreTable EstadoRow.core db'.estados ∧
        coreTable MunicipioRow.core db2.municipios =
          coreTable MunicipioRow.core db'.municipios) ∧
    (∀ p db r db', ensure_municipio p db = (.ok r, db') →
      ∃ r2 db2, ensure_municipio p db' = (.ok r2, db2) ∧ r2.1 = r.1 ∧
        MunicipioRow.core r2.2 = MunicipioRow.core r.2 ∧
        coreTable RegiaoRow.core db2.regioes = coreTable RegiaoRow.core db'.regioes ∧
        coreTable EstadoRow.core db2.estados = coreTable EstadoRow.core db'.estados ∧
        coreTable MunicipioRow.core db2.municipios =
          coreTable MunicipioRow.core db'.municipios) := by
  refine ⟨?_, ?_, ?_⟩
  · intro p db r db' h
    obtain ⟨r2, db2, h2, hkey, hcore, hR, hE, hM⟩ :=
      ensure_regiao_stable p db db' r h db' rfl
    exact ⟨r2, db2, h2, hkey, hcore, hR, by rw [hE], by rw [hM]⟩
  · intro p db r db' h
    obtain ⟨r2, db2, h2, hkey, hcore, hR, hE, hM⟩ :=
      ensure_estado_stable p db db' r h db' rfl rfl
    exact ⟨r2, db2, h2, hkey, hcore, hR, hE, by rw [hM]⟩
  · intro p db r db' h
    obtain ⟨r2, db2, h2, hkey, hcore, hR, hE, hM⟩ :=
      ensure_municipio_stable p db db' r h db' rfl rfl rfl
    exact ⟨r2, db2, h2, hkey, hcore, hR, hE, hM⟩

/-- Store left by the first `_ensure_regiao` run of the C4 witness. -/
def sulDB1 : DB :=
  { clock := 1,
    regioes := [(JVal.jnum 4,
      { sigla := JVal.jstr "S", nome := JVal.jstr "Sul", createdAt := 0, updatedAt := 0 })],
    estados := [], municipios := [] }

/-- C4 witness: the amended statement evaluated on a concrete region
payload, the first call starting from the empty store. -/
theorem c4_witness :
    ∃ r2 db2, ensure_regiao regiaoSulPayload sulDB1 = (.ok r2, db2) ∧
      r2.1 = (JVal.jnum 4) ∧
      RegiaoRow.core r2.2 =
        RegiaoRow.core { sigla := JVal.jstr "S", nome := JVal.jstr "Sul",
                         createdAt := 0, updatedAt := 0 } ∧
      coreTable RegiaoRow.core db2.regioes = coreTable RegiaoRow.core sulDB1.regioes ∧
      coreTable EstadoRow.core db2.estados = coreTable EstadoRow.core sulDB1.estados ∧
      coreTable MunicipioRow.core db2.municipios =
        coreTable MunicipioRow.core sulDB1.municipios :=
  c4_idempotent_up_to_timestamps.1 regiaoSulPayload emptyDB
    (JVal.jnum 4, { sigla := JVal.jstr "S", nome := JVal.jstr "Sul",
                    createdAt := 0, updatedAt := 0 })
    sulDB1 rfl

/-- C5 counterexample: with entity id `0` (a falsy Python int) and
parent id `1` both supplied, `get_estados` and `get_municipios` issue
the nested-collection request for the parent — the parent id is not
ignored and the single-entity request for the entity id is not issued,
refuting the claim as stated for every entity id. -/
theorem c5_counterexample :
    get_estados (some 0) (some 1) none =
      { endpoint := "regioes/1/estados",
        params := [("orderBy", "nome"), ("view", "nivelado")] } ∧
    get_municipios (some 0) (some 1) none =
      { endpoint := "estados/1/municipios",
        params := [("orderBy", "nome"), ("view", "nivelado")] } := by
  constructor <;> rfl

/-- C5 (amended): for every NONZERO entity id X and every parent id Y,
supplying both to `get_estados` (resp. `get_municipios`) issues the
single-entity request for X — the same request as when no parent id is
supplied — and never the nested-collection request for Y.  (A zero
entity id is falsy in Python and treated as absent.) -/
theorem c5_entity_id_precedence (X Y : Int) (hX : X ≠ 0)
    (p q : Option (List (String × String))) :
    get_estados (some X) (some Y) p =
      { endpoint := "estados/" ++ toString X, params := fixedParams } ∧
    get_estados (some X) (some Y) p = get_estados (some X) none q ∧
    get_municipios (some X) (some Y) p =
      { endpoint := "municipios/" ++ toString X, params := fixedParams } ∧
    get_municipios (some X) (some Y) p = get_municipios (some X) none q := by
  have hT : optIdTruthy (some X) = true := by simp [optIdTruthy, hX]
  refine ⟨?_, ?_, ?_, ?_⟩ <;> simp [get_estados, get_municipios, hT, optIdStr]

/-- C5 witness: the amended statement evaluated at entity id 35 and
parent id 3. -/
theorem c5_witness :
    get_estados (some 35) (some 3) none =
      { endpoint := "estados/" ++ toString (35 : Int), params := fixedParams } ∧
    get_estados (some 35) (some 3) none = get_estados (some 35) none none :=
  ⟨(c5_entity_id_precedence 35 3 (by decide) none none).1,
   (c5_entity_id_precedence 35 3 (by decide) none none).2.1⟩

/-- C6: for every municipality payload from which a state payload is
resolved (either nested shape), after a successful `_ensure_municipio`
the persisted municipality row's state foreign key equals the id of the
resolved state payload, and the row is stored under the municipality's
id. -/
theorem c6_state_fk_matches (data : JVal) (db : DB) (uf sid : JVal)
    (r : JVal × MunicipioRow) (db' : DB)
    (hx : extractUF data = .ok uf) (hsid : uf.item "id" = .ok sid)
    (h : ensure_municipio data db = (.ok r, db')) :
    r.2.estado = sid ∧ db'.municipios.lookup r.1 = some r.2 := by
  obtain ⟨uf', er, db1, i, n, hx', ht', he, hi, hn, hl, hrr, hdb⟩ :=
    ensure_municipio_spec data db r db' h
  rw [hx] at hx'
  cases hx'
  have hte := ensure_estado_table uf db er db1 he
  have hid : er.1 = sid := by
    have := hte.1
    rw [hsid] at this
    exact (Except.ok.injEq _ _).mp this.symm
  constructor
  · rw [hrr, hid]
  · rw [hdb, hrr]
    simp

/-- Store produced by ensuring the São Paulo municipality payload from
the empty store (region, state and municipality rows). -/
def spDB : DB :=
  { clock := 3,
    regioes := [(JVal.jnum 3,
      { sigla := JVal.jstr "SE", nome := JVal.jstr "Sudeste", createdAt := 0, updatedAt := 0 })],
    estados := [(JVal.jnum 35,
      { sigla := JVal.jstr "SP", nome := JVal.jstr "Sao Paulo", regiao := JVal.jnum 3,
        createdAt := 1, updatedAt := 1 })],
    municipios := [(JVal.jnum 3550308,
      { nome := JVal.jstr "Sao Paulo", estado := JVal.jnum 35,
        createdAt := 2, updatedAt := 2 })] }

/-- Municipality row persisted for the São Paulo payload. -/
def spMunRow : MunicipioRow :=
  { nome := JVal.jstr "Sao Paulo", estado := JVal.jnum 35, createdAt := 2, updatedAt := 2 }

/-- C6 witness: the theorem evaluated on the concrete São Paulo
municipality payload, whose resolved state payload has id 35. -/
theorem c6_witness :
    (JVal.jnum 3550308, spMunRow).2.estado = JVal.jnum 35 ∧
    spDB.municipios.lookup (JVal.jnum 3550308, spMunRow).1 =
      some (JVal.jnum 3550308, spMunRow).2 :=
  c6_state_fk_matches municipioSaoPauloPayload emptyDB estadoSPPayload (JVal.jnum 35)
    (JVal.jnum 3550308, spMunRow) spDB rfl rfl rfl

/-- C7: on success each sync function returns exactly one persisted
entity per flattened payload object, in fetch order (no dedup), each
keyed by its payload object's id and carrying that object's fields —
abbreviation and name, and, for states and municipalities, the parent
foreign key equal to the id of the nested parent payload; and when an
id occurs more than once, the persisted row's fields after the call are
those of the last occurrence. -/
theorem c7_order_and_last_wins :
    (∀ rid ids p api db rs db',
      sync_regioes rid ids p api db = (.ok rs, db') →
      List.Forall₂ (fun (r : JVal × RegiaoRow) d => d.item "id" = .ok r.1 ∧
          d.getD "sigla" (.jstr "") = .ok r.2.sigla ∧
          d.getD "nome" (.jstr "") = .ok r.2.nome)
        rs (sync_regioes_payload rid ids p api) ∧
      (∀ j d, lastWithId j (sync_regioes_payload rid ids p api) = some d →
        ∃ row, db'.regioes.lookup j = some row ∧
          d.getD "sigla" (.jstr "") = .ok row.sigla ∧
          d.getD "nome" (.jstr "") = .ok row.nome)) ∧
    (∀ eid rid ids p api db rs db',
      sync_estados eid rid ids p api db = (.ok rs, db') →
      List.Forall₂ (fun (r : JVal × EstadoRow) d => d.item "id" = .ok r.1 ∧
          d.getD "sigla" (.jstr "") = .ok r.2.sigla ∧
          d.getD "nome" (.jstr "") = .ok r.2.nome ∧
          ∃ rd, d.get "regiao" = .ok rd ∧ rd.item "id" = .ok r.2.regiao)
        rs (sync_estados_payload eid rid ids p api) ∧
      (∀ j d, lastWithId j (sync_estados_payload eid rid ids p api) = some d →
        ∃ row, db'.estados.lookup j = some row ∧
          d.getD "sigla" (.jstr "") = .ok row.sigla ∧
          d.getD "nome" (.jstr "") = .ok row.nome ∧
          ∃ rd, d.get "regiao" = .ok rd ∧ rd.item "id" = .ok row.regiao)) ∧
    (∀ mid eid ids p api db rs db',
      sync_municipios mid eid ids p api db = (.ok rs, db') →
      List.Forall₂ (fun (r : JVal × MunicipioRow) d => d.item "id" = .ok r.1 ∧
          d.getD "nome" (.jstr "") = .ok r.2.nome ∧
          ∃ uf, extractUF d = .ok uf ∧ uf.item "id" = .ok r.2.estado)
        rs (sync_municipios_payload mid eid ids p api) ∧
      (∀ j d, lastWithId j (sync_municipios_payload mid eid ids p api) = some d →
        ∃ row, db'.municipios.lookup j = some row ∧
          d.getD "nome" (.jstr "") = .ok row.nome ∧
          ∃ uf, extractUF d = .ok uf ∧ uf.item "id" = .ok row.estado)) := by
  refine ⟨?_, ?_, ?_⟩
  · intro rid ids p api db rs db' h
    have hb := atomicRun_ok _ db db' rs h
    constructor
    · exact ensureAll_forall2 (T := fun x => x.regioes)
        (P := fun d row => d.getD "sigla" (.jstr "") = .ok row.sigla ∧
          d.getD "nome" (.jstr "") = .ok row.nome) hf_regiao _ db rs db' hb
    · intro j d hd
      exact ensureAll_last_wins (T := fun x => x.regioes)
        (P := fun d row => d.getD "sigla" (.jstr "") = .ok row.sigla ∧
          d.getD "nome" (.jstr "") = .ok row.nome) hf_regiao _ db rs db' hb j d hd
  · intro eid rid ids p api db rs db' h
    have hb := atomicRun_ok _ db db' rs h
    constructor
    · exact ensureAll_forall2 (T := fun x => x.estados)
        (P := fun d row => d.getD "sigla" (.jstr "") = .ok row.sigla ∧
          d.getD "nome" (.jstr "") = .ok row.nome ∧
          ∃ rd, d.get "regiao" = .ok rd ∧ rd.item "id" = .ok row.regiao)
        hf_estado _ db rs db' hb
    · intro j d hd
      exact ensureAll_last_wins (T := fun x => x.estados)
        (P := fun d row => d.getD "sigla" (.jstr "") = .ok row.sigla ∧
          d.getD "nome" (.jstr "") = .ok row.nome ∧
          ∃ rd, d.get "regiao" = .ok rd ∧ rd.item "id" = .ok row.regiao)
        hf_estado _ db rs db' hb j d hd
  · intro mid eid ids p api db rs db' h
    have hb := atomicRun_ok _ db db' rs h
    constructor
    · exact ensureAll_forall2 (T := fun x => x.municipios)
        (P := fun d row => d.getD "nome" (.jstr "") = .ok row.nome ∧
          ∃ uf, extractUF d = .ok uf ∧ uf.item "id" = .ok row.estado)
        hf_municipio _ db rs db' hb
    · intro j d hd
      exact ensureAll_last_wins (T := fun x => x.municipios)
        (P := fun d row => d.getD "nome" (.jstr "") = .ok row.nome ∧
          ∃ uf, extractUF d = .ok uf ∧ uf.item "id" = .ok row.estado)
        hf_municipio _ db rs db' hb j d hd

/-- Second state payload with the same id 35 but a different name, same
nested region. -/
def estadoSPv2Payload : JVal :=
  .jobj (.cons "id" (.jnum 35) (.cons "sigla" (.jstr "SP")
    (.cons "nome" (.jstr "Sao Paulo Novo") (.cons "regiao" regiaoSudestePayload .nil))))

/-- Remote response used by the C7 witness: a list with the same state
id twice. -/
def apiDupEstados : Request → JVal := fun _ =>
  .jarr (.cons estadoSPPayload (.cons estadoSPv2Payload .nil))

/-- Entities returned by the C7 witness run, one per payload object. -/
def dupES : List (JVal × EstadoRow) :=
  [(JVal.jnum 35,
    { sigla := JVal.jstr "SP", nome := JVal.jstr "Sao Paulo", regiao := JVal.jnum 3,
      createdAt := 1, updatedAt := 1 }),
   (JVal.jnum 35,
    { sigla := JVal.jstr "SP", nome := JVal.jstr "Sao Paulo Novo", regiao := JVal.jnum 3,
      createdAt := 1, updatedAt := 3 })]

/-- Store after the C7 witness run: one state row for id 35 with the
fields of the later payload occurrence, including its region key. -/
def dupEDB : DB :=
  { clock := 4,
    regioes := [(JVal.jnum 3,
      { sigla := JVal.jstr "SE", nome := JVal.jstr "Sudeste", createdAt := 0, updatedAt := 2 })],
    estados := [(JVal.jnum 35,
      { sigla := JVal.jstr "SP", nome := JVal.jstr "Sao Paulo Novo", regiao := JVal.jnum 3,
        createdAt := 1, updatedAt := 3 })],
    municipios := [] }

/-- C7 witness: with state id 35 fetched twice, the persisted row
carries the fields of the last occurrence, its region foreign key being
the id of that occurrence's nested region payload. -/
theorem c7_witness :
    ∃ row, dupEDB.estados.lookup (JVal.jnum 35) = some row ∧
      estadoSPv2Payload.getD "sigla" (.jstr "") = .ok row.sigla ∧
      estadoSPv2Payload.getD "nome" (.jstr "") = .ok row.nome ∧
      ∃ rd, estadoSPv2Payload.get "regiao" = .ok rd ∧ rd.item "id" = .ok row.regiao :=
  (c7_order_and_last_wins.2.1 none none none none apiDupEstados emptyDB dupES dupEDB rfl).2
    (JVal.jnum 35) estadoSPv2Payload rfl

/-- C8: passing `ids=[]` is treated exactly like passing no `ids` at
all — Python's `if ids:` is falsy for the empty list — so every sync
function falls through to the single-fetch path; with no other ids the
call fetches (and would persist) the entire collection at that level. -/
theorem c8_empty_ids_falls_through :
    ∀ (rid eid mid : Option Int) (p : Option (List (String × String)))
      (api : Request → JVal) (db : DB),
      sync_regioes rid (some []) p api db = sync_regioes rid none p api db ∧
      sync_estados eid rid (some []) p api db = sync_estados eid rid none p api db ∧
      sync_municipios mid eid (some []) p api db =
        sync_municipios mid eid none p api db ∧
      sync_regioes_payload none (some []) p api =
        normalize_payload (api { endpoint := "regioes", params := fixedParams }) := by
  intro rid eid mid p api db
  exact ⟨rfl, rfl, rfl, rfl⟩

/-- C9: the caller-supplied `params` argument of `get_regioes`,
`get_estados` and `get_municipios` is discarded: the request is always
built with exactly `orderBy=nome` and `view=nivelado`, so two calls
differing only in `params` build the same request. -/
theorem c9_params_discarded :
    ∀ (rid eid mid : Option Int) (p q : Option (List (String × String))),
      get_regioes rid p = get_regioes rid q ∧
      (get_regioes rid p).params = [("orderBy", "nome"), ("view", "nivelado")] ∧
      get_estados eid rid p = get_estados eid rid q ∧
      (get_estados eid rid p).params = [("orderBy", "nome"), ("view", "nivelado")] ∧
      get_municipios mid eid p = get_municipios mid eid q ∧
      (get_municipios mid eid p).params = [("orderBy", "nome"), ("view", "nivelado")] := by
  intro rid eid mid p q
  exact ⟨rfl, rfl, rfl, rfl, rfl, rfl⟩

/-- C10: any of the four chain keys present but bound to null — a
`"microrregiao"`, a nested `"mesorregiao"`, or (once the left chain
came up falsy) a `"regiao-imediata"` or a nested
`"regiao-intermediaria"` — makes `_ensure_municipio` raise an
AttributeError (attribute access on `None`) before any upsert, the
store unchanged; conversely, whenever the extraction succeeds — in
particular whenever the no-state branch is reached — none of these
keys was bound to null along the evaluated path: `"microrregiao"` and
its nested `"mesorregiao"` are not null, and when the left chain came
up falsy, `"regiao-imediata"` and its nested `"regiao-intermediaria"`
are not null either. -/
theorem c10_null_nested_key_raises :
    (∀ data db, data.getD "microrregiao" (.jobj .nil) = .ok .null →
      ensure_municipio data db = (.error .attrError, db)) ∧
    (∀ data db m1, data.getD "microrregiao" (.jobj .nil) = .ok m1 →
      m1.getD "mesorregiao" (.jobj .nil) = .ok .null →
      ensure_municipio data db = (.error .attrError, db)) ∧
    (∀ data db m1 m2 left, data.getD "microrregiao" (.jobj .nil) = .ok m1 →
      m1.getD "mesorregiao" (.jobj .nil) = .ok m2 →
      m2.get "UF" = .ok left → left.truthy = false →
      data.getD "regiao-imediata" (.jobj .nil) = .ok .null →
      ensure_municipio data db = (.error .attrError, db)) ∧
    (∀ data db m1 m2 left r1, data.getD "microrregiao" (.jobj .nil) = .ok m1 →
      m1.getD "mesorregiao" (.jobj .nil) = .ok m2 →
      m2.get "UF" = .ok left → left.truthy = false →
      data.getD "regiao-imediata" (.jobj .nil) = .ok r1 →
      r1.getD "regiao-intermediaria" (.jobj .nil) = .ok .null →
      ensure_municipio data db = (.error .attrError, db)) ∧
    (∀ data uf, extractUF data = .ok uf →
      data.getD "microrregiao" (.jobj .nil) ≠ .ok .null) ∧
    (∀ data uf m1, extractUF data = .ok uf →
      data.getD "microrregiao" (.jobj .nil) = .ok m1 →
      m1.getD "mesorregiao" (.jobj .nil) ≠ .ok .null) ∧
    (∀ data uf m1 m2 left, extractUF data = .ok uf →
      data.getD "microrregiao" (.jobj .nil) = .ok m1 →
      m1.getD "mesorregiao" (.jobj .nil) = .ok m2 →
      m2.get "UF" = .ok left → left.truthy = false →
      data.getD "regiao-imediata" (.jobj .nil) ≠ .ok .null ∧
      ∀ r1, data.getD "regiao-imediata" (.jobj .nil) = .ok r1 →
        r1.getD "regiao-intermediaria" (.jobj .nil) ≠ .ok .null) := by
  refine ⟨?_, ?_, ?_, ?_, ?_, ?_, ?_⟩
  · intro data db h1
    have hx : extractUF data = .error .attrError := by
      simp only [extractUF, h1]
      rfl
    simp [ensure_municipio, hx]
  · intro data db m1 h1 h2
    have hx : extractUF data = .error .attrError := by
      simp only [extractUF, h1, h2]
      rfl
    simp [ensure_municipio, hx]
  · intro data db m1 m2 left h1 h2 h3 hft h5
    have hx : extractUF data = .error .attrError := by
      simp only [extractUF, h1, h2, h3, hft, Bool.false_eq_true, if_false, h5]
      rfl
    simp [ensure_municipio, hx]
  · intro data db m1 m2 left r1 h1 h2 h3 hft h5 h6
    have hx : extractUF data = .error .attrError := by
      simp only [extractUF, h1, h2, h3, hft, Bool.false_eq_true, if_false, h5, h6]
      rfl
    simp [ensure_municipio, hx]
  · intro data uf hx h1
    have hcontra : extractUF data = Except.error PyErr.attrError := by
      simp only [extractUF, h1]
      rfl
    rw [hcontra] at hx
    exact Except.noConfusion hx
  · intro data uf m1 hx h1 h2
    have hcontra : extractUF data = Except.error PyErr.attrError := by
      simp only [extractUF, h1, h2]
      rfl
    rw [hcontra] at hx
    exact Except.noConfusion hx
  · intro data uf m1 m2 left hx h1 h2 h3 hft
    constructor
    · intro h5
      have hcontra : extractUF data = Except.error PyErr.attrError := by
        simp only [extractUF, h1, h2, h3, hft, Bool.false_eq_true, if_false, h5]
        rfl
      rw [hcontra] at hx
      exact Except.noConfusion hx
    · intro r1 h5 h6
      have hcontra : extractUF data = Except.error PyErr.attrError := by
        simp only [extractUF, h1, h2, h3, hft, Bool.false_eq_true, if_false, h5, h6]
        rfl
      rw [hcontra] at hx
      exact Except.noConfusion hx

/-- C10 witness: the concrete payload whose `"microrregiao"` is null is
rejected with an AttributeError before any write. -/
theorem c10_witness :
    ensure_municipio municipioMicroNull emptyDB = (.error .attrError, emptyDB) :=
  c10_null_nested_key_raises.1 municipioMicroNull emptyDB rfl
